import Mathlib

/-!
# Verification of the client-playground core

A shallow embedding in Lean 4 of the `client-playground` package
(`src/index.ts`): the output-reference constructor `ref`, the fluent
procedure-reference builder `proc`, and the execution driver `run` with
its registry-to-transport adapter.

Modelling conventions:

* JavaScript objects with optional fields become structures with
  `Option` fields; `none` models the field being *absent* (the source
  only ever assigns `$name`/`$when` when the stored string is truthy,
  so a present-but-`undefined` key never arises).
* JavaScript reference equality collapses to Lean equality where the
  code returns a captured value unchanged; where object *identity* and
  independent mutability matter (claim about `.ref` snapshots) we model
  allocation explicitly with a list-indexed heap.
* The external collaborators from `@mark1russell7/client` (the
  procedure registry, the transport, the client) are not part of this
  repository; they are modelled from the spec's collaborator contracts
  (§6): the registry is a list of entries with path and optional
  handler, looked up by path; the transport is the list of
  `(method, handler)` registrations made on it; the client is an
  arbitrary function from transport and root reference to a result or
  a thrown condition.
* Handler code is deep-embedded as a small program type `HProg` whose
  only effect is the call context's nested-call capability; the
  interpreter `interp` threads the call context exactly as the closure
  in `run` does, with a fuel parameter to bound recursion (an artifact
  of the embedding, not of the source).
-/

namespace ClientPlayground

/-- `ProcedurePath`: ordered sequence of path segments (strings). -/
abbrev ProcedurePath := List String

/-- `p.join(".")` on a JS array of strings. -/
def joinDot (p : List String) : String := String.intercalate "." p

/-! ## Output references (`ref`) -/

/-- `OutputRef`: `{ $ref: string }`.  Field `refField` models `$ref`. -/
structure OutputRef where
  refField : String
  deriving Repr, DecidableEq

/-- `export function ref(path: string): OutputRef { return { $ref: path }; }` -/
def ref (path : String) : OutputRef := { refField := path }

/-! ## Procedure-reference builder (`proc`) -/

/-- The builder's initial input payload `{}` (an empty object literal). -/
inductive EmptyObj : Type where
  | mk
  deriving Repr, DecidableEq

/-- `ProcedureRefJson`: `{ $proc, input, $name?, $when? }`.
Fields `procField`, `inputField`, `nameField`, `whenField` model
`$proc`, `input`, `$name`, `$when`; `none` means the key is absent. -/
structure ProcedureRefJson (α : Type) where
  procField : ProcedurePath
  inputField : α
  nameField : Option String
  whenField : Option String
  deriving Repr, DecidableEq

/-- The mutable state of one `proc(path)` builder instance:
`path` (captured), `_input` (defaulted to `{}`), `_name`, `_when`. -/
structure ProcBuilderState (α : Type) where
  path : ProcedurePath
  inputState : α
  nameState : Option String
  whenState : Option String
  deriving Repr, DecidableEq

/-- `proc(path)`: fresh builder, `_input = {}`, no name, no when. -/
def proc (path : ProcedurePath) : ProcBuilderState EmptyObj :=
  { path := path, inputState := EmptyObj.mk, nameState := none, whenState := none }

/-- `.input(input)`: replaces the accumulated payload (overwrites). -/
def inputB {α β : Type} (st : ProcBuilderState α) (i : β) : ProcBuilderState β :=
  { path := st.path, inputState := i, nameState := st.nameState, whenState := st.whenState }

/-- `.name(name)`: sets the stage identifier (overwrites). -/
def nameB {α : Type} (st : ProcBuilderState α) (n : String) : ProcBuilderState α :=
  { st with nameState := some n }

/-- `.when(when)`: sets the timing directive (overwrites). -/
def whenB {α : Type} (st : ProcBuilderState α) (w : String) : ProcBuilderState α :=
  { st with whenState := some w }

/-- JS truthiness of a `string | undefined` value: `undefined` and the
empty string are falsy, every other string is truthy.  Used by the
`get ref()` snapshot: `if (_name) { result.$name = _name }`. -/
def truthyOpt : Option String → Option String
  | some s => if s = "" then none else some s
  | none => none

/-- The `get ref()` accessor: builds a fresh `{ $proc, input }` object and
assigns `$name` / `$when` only when the stored value is truthy. -/
def refOf {α : Type} (st : ProcBuilderState α) : ProcedureRefJson α :=
  { procField := st.path
    inputField := st.inputState
    nameField := truthyOpt st.nameState
    whenField := truthyOpt st.whenState }

/-- One access of the `ref` getter against an explicit heap: the getter
constructs a *fresh* object literal on every access (`const result =
{...}` in the source), modelled as appending a new object to the heap
and returning its address. -/
def readRef {α : Type} (st : ProcBuilderState α) (heap : List (ProcedureRefJson α)) :
    List (ProcedureRefJson α) × Nat :=
  (heap ++ [refOf st], heap.length)

/-! ## Execution driver (`run`) and registry-to-transport adapter

The registry, transport and client come from `@mark1russell7/client`,
outside this repository; their shapes below are modelled from the
spec's collaborator contracts (§6). -/

/-- The call context handed to a handler, minus its `client.call`
capability (which is provided by the interpreter semantics): the
`metadata: {}` object and the `path` of the installed procedure. -/
structure CallCtxData (V : Type) where
  metadata : List (String × V)
  path : ProcedurePath
  deriving Repr, DecidableEq

/-- Deep embedding of a handler body: it either returns a value or uses
the call context's `client.call(p, i)` capability and continues with
the awaited result. -/
inductive HProg (V : Type) : Type where
  | ret : V → HProg V
  | callThen : ProcedurePath → V → (V → HProg V) → HProg V

/-- A registered handler: `(input, context) => body`. -/
def Handler (V : Type) : Type := V → CallCtxData V → HProg V

/-- Modelled from the spec: a registry entry — a procedure with a path
and an optional handler (`Procedure` of `@mark1russell7/client`). -/
structure Procedure (V : Type) where
  path : ProcedurePath
  handler : Option (Handler V)

/-- Modelled from the spec: `PROCEDURE_REGISTRY.getAll()` is the list
itself; `PROCEDURE_REGISTRY.get(p)` looks an entry up by path. -/
def regGet {V : Type} (reg : List (Procedure V)) (p : ProcedurePath) :
    Option (Procedure V) :=
  reg.find? (fun pr => pr.path == p)

/-- `PROCEDURE_REGISTRY.get(p)?.handler`: the optional chaining in the
nested-call capability (`!proc?.handler` is falsy exactly when this is
`none`, since a function value is always truthy). -/
def regLookupHandler {V : Type} (reg : List (Procedure V)) (p : ProcedurePath) :
    Option (Handler V) :=
  (regGet reg p).bind Procedure.handler

/-- Error message of the embedding when the fuel bound is hit; an
artifact of bounding recursion, never produced by the modelled code at
sufficient fuel. -/
def fuelErr : String := "interpreter fuel exhausted"

/-- Interpreter for handler bodies.  The `callThen` case is the
closure `context.client.call` from `run`:

```
call: async (p, i) => {
  const proc = PROCEDURE_REGISTRY.get(p);
  if (!proc?.handler) { throw new Error(`Procedure not found: ...`); }
  return proc.handler(i, context);
}
```

The nested handler runs with the *same* context `ctx` as the caller. -/
def interp {V : Type} (reg : List (Procedure V)) :
    Nat → CallCtxData V → HProg V → Except String V
  | _, _, .ret v => .ok v
  | 0, _, .callThen _ _ _ => .error fuelErr
  | fuel + 1, ctx, .callThen p i k =>
    match regLookupHandler reg p with
    | none => .error ("Procedure not found: " ++ joinDot p)
    | some h =>
      match interp reg fuel ctx (h i ctx) with
      | .ok v => interp reg fuel ctx (k v)
      | .error e => .error e

/-- `interp`, additionally recording the call context passed to every
nested handler invocation (one trace entry per `client.call` that
reaches a handler). -/
def interpT {V : Type} (reg : List (Procedure V)) :
    Nat → CallCtxData V → HProg V → Except String V × List (CallCtxData V)
  | _, _, .ret v => (.ok v, [])
  | 0, _, .callThen _ _ _ => (.error fuelErr, [])
  | fuel + 1, ctx, .callThen p i k =>
    match regLookupHandler reg p with
    | none => (.error ("Procedure not found: " ++ joinDot p), [])
    | some h =>
      match interpT reg fuel ctx (h i ctx) with
      | (.ok v, t1) =>
        match interpT reg fuel ctx (k v) with
        | (r2, t2) => (r2, ctx :: (t1 ++ t2))
      | (.error e, t1) => (.error e, ctx :: t1)

/-- The wrapper `run` registers for a handler-carrying procedure:
construct the context (`metadata: {}`, `path: procedure.path`) and call
`procedure.handler!(payload, context)`. -/
def transportHandler {V : Type} (reg : List (Procedure V)) (fuel : Nat)
    (procd : Procedure V) (h : Handler V) : V → Except String V :=
  fun payload =>
    let ctx : CallCtxData V := { metadata := [], path := procd.path }
    interp reg fuel ctx (h payload ctx)

/-- `transportHandler`, recording the context of the initial handler
invocation and of every nested one. -/
def transportHandlerT {V : Type} (reg : List (Procedure V)) (fuel : Nat)
    (procd : Procedure V) (h : Handler V) (payload : V) :
    Except String V × List (CallCtxData V) :=
  let ctx : CallCtxData V := { metadata := [], path := procd.path }
  match interpT reg fuel ctx (h payload ctx) with
  | (r, t) => (r, ctx :: t)

/-- A transport method identity `{ service, operation }`.  The source
destructures `const [service, ...rest] = procedure.path`, so `service`
is `undefined` (modelled `none`) on an empty path — the `service!`
assertion is compile-time only. -/
structure Method where
  service : Option String
  operation : String
  deriving Repr, DecidableEq

/-- The method identity derived from a path: first segment is the
service, the remaining segments joined by `.` are the operation. -/
def mkMethod (p : ProcedurePath) : Method :=
  { service := p.head?, operation := joinDot p.tail }

/-- Modelled from the spec: the transport records its registrations
(`transport.register(method, handler)` appends one). -/
abbrev Transport (V : Type) : Type := List (Method × (V → Except String V))

/-- The registry-sync loop of `run`: for every registered procedure
with a handler, register the derived method with the wrapping handler;
procedures without a handler are skipped. -/
def syncTransport {V : Type} (reg : List (Procedure V)) (fuel : Nat) : Transport V :=
  reg.foldl
    (fun t procd =>
      match procd.handler with
      | some h => t ++ [(mkMethod procd.path, transportHandler reg fuel procd h)]
      | none => t)
    []

/-- `RunOptions`: `{ print?: boolean; format?: "json" | "text" }`. -/
inductive Fmt : Type where
  | json
  | text
  deriving Repr, DecidableEq

/-- Run options with both fields optional, as in the source. -/
structure RunOptions where
  print : Option Bool
  format : Option Fmt
  deriving Repr, DecidableEq

/-- `run(procedureRef, options)`.  The client is an external
collaborator (spec §6: constructed over the transport, executes the
root reference), passed as `exec`.  `stringify` models
`JSON.stringify(result, null, 2)` and `textRepr` the default rendering
of `console.log(result)` — both external to this package.  The second
component of the result models the lines written to the output sink;
a thrown condition propagates as `.error` with nothing printed. -/
def run {V α : Type} (reg : List (Procedure V)) (fuel : Nat)
    (exec : Transport V → ProcedureRefJson α → Except String V)
    (stringify textRepr : V → String)
    (procedureRef : ProcedureRefJson α) (options : RunOptions) :
    Except String V × List String :=
  let shouldPrint := options.print.getD true
  let fmt := options.format.getD Fmt.json
  let transport := syncTransport reg fuel
  match exec transport procedureRef with
  | .error e => (.error e, [])
  | .ok result =>
    (.ok result,
      if shouldPrint then
        [match fmt with
         | .json => stringify result
         | .text => textRepr result]
      else [])

/-! ## Theorems: reference model and builder -/

/-- C8: for every string `path`, `ref(path)` returns an object whose
`$ref` field is exactly `path` (including the empty string and strings
with no dots); `ref` is a total function, so construction never fails
and performs no validation of the address. -/
theorem c8_ref_wraps_path_verbatim (p : String) : (ref p).refField = p := rfl

/-- C4: for every path `p` and input `i`, the snapshot
`proc(p).input(i).ref` has `$proc` equal to `p` (the captured array
itself) and `input` equal to `i` (the captured value itself), and with
`.name`/`.when` never called it has no `$name` and no `$when` field
(modelled as the `Option` fields being `none`, i.e. key absent). -/
theorem c4_input_snapshot {α : Type} (p : ProcedurePath) (i : α) :
    (refOf (inputB (proc p) i)).procField = p ∧
    (refOf (inputB (proc p) i)).inputField = i ∧
    (refOf (inputB (proc p) i)).nameField = none ∧
    (refOf (inputB (proc p) i)).whenField = none :=
  ⟨rfl, rfl, rfl, rfl⟩

/-- C5 counterexample: the claim quantifies over *every* string `n`,
but at `n = ""` the snapshot getter's truthiness test drops the name:
`proc(["a"]).name("").ref.$name` is absent, not `""`. -/
theorem c5_name_empty_cex :
    ¬ (refOf (nameB (proc ["a"]) "")).nameField = some "" := by
  simp [refOf, nameB, proc, truthyOpt]

/-- C5 amended: for every *nonempty* string `n`,
`proc(p).name(n).ref.$name === n`; and when `.name` is called more than
once with a nonempty last argument, the snapshot's `$name` is the
argument of the last call only, whatever was set before. -/
theorem c5_name_last_call_wins {α : Type} (st : ProcBuilderState α)
    (p : ProcedurePath) (n : String) (hn : n ≠ "") :
    (refOf (nameB (proc p) n)).nameField = some n ∧
    ∀ m : String, (refOf (nameB (nameB st m) n)).nameField = some n := by
  refine ⟨?_, fun m => ?_⟩ <;> simp [refOf, nameB, proc, truthyOpt, hn]

/-- C5 witness at `n = "changes"`. -/
theorem c5_name_last_call_wins_witness :
    ("changes" : String) ≠ "" ∧
    (refOf (nameB (proc ["git", "hasChanges"]) "changes")).nameField = some "changes" ∧
    (refOf (nameB (nameB (proc ["git", "hasChanges"]) "old") "changes")).nameField
      = some "changes" := by
  have h := c5_name_last_call_wins (proc ["git", "hasChanges"])
    ["git", "hasChanges"] "changes" (by decide)
  exact ⟨by decide, h.1, h.2 "old"⟩

/-- C10: calling `.name("")` or `.when("")` behaves like never calling
it: the getter's truthiness test (`if (_name)`, `if (_when)`) drops the
empty string, so the snapshot carries no `$name` / `$when` field and is
the very snapshot of the builder with that directive unset. -/
theorem c10_empty_string_behaves_unset {α : Type} (st : ProcBuilderState α) :
    refOf (nameB st "") = { refOf st with nameField := none } ∧
    refOf (whenB st "") = { refOf st with whenField := none } ∧
    (refOf (nameB st "")).nameField = none ∧
    (refOf (whenB st "")).whenField = none := by
  refine ⟨?_, ?_, ?_, ?_⟩ <;> simp [refOf, nameB, whenB, truthyOpt]

/-- C6: two accesses of `.ref` with no intervening mutation allocate
two *distinct* objects (fresh object literal per access, modelled as
distinct heap addresses) that are structurally equal (both are the same
snapshot of the state) and independently mutable: overwriting the heap
cell of either address leaves the other access's cell unchanged. -/
theorem c6_ref_idempotent_fresh {α : Type} (st : ProcBuilderState α)
    (h0 : List (ProcedureRefJson α)) (v : ProcedureRefJson α) :
    (readRef st (readRef st h0).1).2 ≠ (readRef st h0).2 ∧
    ((readRef st (readRef st h0).1).1)[(readRef st h0).2]? = some (refOf st) ∧
    ((readRef st (readRef st h0).1).1)[(readRef st (readRef st h0).1).2]?
      = some (refOf st) ∧
    (((readRef st (readRef st h0).1).1).set (readRef st h0).2 v)[(readRef st (readRef st h0).1).2]?
      = some (refOf st) ∧
    (((readRef st (readRef st h0).1).1).set (readRef st (readRef st h0).1).2 v)[(readRef st h0).2]?
      = some (refOf st) := by
  have hne : h0.length ≠ (h0 ++ [refOf st]).length := by simp
  have h1 : ((h0 ++ [refOf st]) ++ [refOf st])[h0.length]? = some (refOf st) := by
    rw [List.getElem?_append_left (by simp)]
    exact List.getElem?_concat_length h0 (refOf st)
  have h2 : ((h0 ++ [refOf st]) ++ [refOf st])[(h0 ++ [refOf st]).length]?
      = some (refOf st) :=
    List.getElem?_concat_length _ (refOf st)
  refine ⟨by simp [readRef], h1, h2, ?_, ?_⟩
  · simp only [readRef]
    rw [List.getElem?_set_ne hne]; exact h2
  · simp only [readRef]
    rw [List.getElem?_set_ne (Ne.symm hne)]; exact h1

/-! ## Theorems: registry-to-transport adapter and driver -/

/-- The registry-sync loop, written as the `filterMap` it computes. -/
theorem syncTransport_foldl_aux {V : Type} (reg : List (Procedure V)) (fuel : Nat) :
    ∀ (l : List (Procedure V)) (acc : Transport V),
      l.foldl
        (fun t procd =>
          match procd.handler with
          | some h => t ++ [(mkMethod procd.path, transportHandler reg fuel procd h)]
          | none => t) acc
      = acc ++ l.filterMap (fun procd =>
          procd.handler.map
            (fun h => (mkMethod procd.path, transportHandler reg fuel procd h))) := by
  intro l
  induction l with
  | nil => intro acc; simp
  | cons procd l ih =>
    intro acc
    cases hh : procd.handler with
    | none => simpa [hh] using ih acc
    | some h =>
      simpa [hh] using
        ih (acc ++ [(mkMethod procd.path, transportHandler reg fuel procd h)])

/-- The installed method identities, procedure by procedure. -/
theorem sync_methods_aux {V : Type} (reg : List (Procedure V)) (fuel : Nat) :
    ∀ l : List (Procedure V),
      (l.filterMap (fun procd =>
        procd.handler.map
          (fun h => (mkMethod procd.path, transportHandler reg fuel procd h)))).map Prod.fst
      = (l.filter (fun procd => procd.handler.isSome)).map
          (fun procd => mkMethod procd.path) := by
  intro l
  induction l with
  | nil => simp
  | cons procd l ih =>
    cases hh : procd.handler with
    | none => simp [hh, ih]
    | some h => simp [hh, ih]

/-- C1: during one `run` invocation, the methods registered on the
transport are exactly the derived identities of the handler-carrying
registry procedures, in registry order — so every procedure with a
handler installs one method (service = first path segment, operation =
remaining segments joined by `.`), and a procedure without a handler
installs none. -/
theorem c1_sync_installs_handler_procedures {V : Type}
    (reg : List (Procedure V)) (fuel : Nat) :
    (syncTransport reg fuel).map Prod.fst
      = (reg.filter (fun procd => procd.handler.isSome)).map
          (fun procd => mkMethod procd.path) ∧
    ∀ (s : String) (rest : List String),
      mkMethod (s :: rest) = { service := some s, operation := joinDot rest } := by
  constructor
  · rw [show syncTransport reg fuel
        = reg.filterMap (fun procd =>
            procd.handler.map
              (fun h => (mkMethod procd.path, transportHandler reg fuel procd h))) from
      by simpa using syncTransport_foldl_aux reg fuel reg []]
    exact sync_methods_aux reg fuel reg
  · intro s rest; rfl

/-- C2: semantics of the call context's `client.call(p, i)` inside a
handler: when the registry has no entry at `p`, or the entry has no
handler, the nested call fails with
`"Procedure not found: " ++ p.join(".")`; otherwise the target handler
is invoked with input `i` and the *caller's own* context `ctx`, and the
handler body continues with its awaited result. -/
theorem c2_nested_call_semantics {V : Type} (reg : List (Procedure V)) (fuel : Nat)
    (ctx : CallCtxData V) (p : ProcedurePath) (i : V) (k : V → HProg V) :
    (regLookupHandler reg p = none →
      interp reg (fuel + 1) ctx (HProg.callThen p i k)
        = .error ("Procedure not found: " ++ joinDot p)) ∧
    (∀ h : Handler V, regLookupHandler reg p = some h →
      interp reg (fuel + 1) ctx (HProg.callThen p i k)
        = match interp reg fuel ctx (h i ctx) with
          | .ok v => interp reg fuel ctx (k v)
          | .error e => .error e) := by
  constructor
  · intro hnone; simp [interp, hnone]
  · intro h hsome; simp [interp, hsome]

/-- A registry for the witnesses: `["x"]` registered without handler,
`["a","c"]` with one. -/
def hcW : Handler Nat := fun i _ => HProg.ret (i + 1)

/-- Witness registry with a handler-less entry and a handler entry. -/
def regW2 : List (Procedure Nat) := [⟨["x"], none⟩, ⟨["a", "c"], some hcW⟩]

/-- C2 witness: the nested call to the handler-less `["x"]` fails with
the dotted-path message, and the nested call to `["a","c"]` reaches its
handler. -/
theorem c2_nested_call_semantics_witness :
    regLookupHandler regW2 ["x"] = none ∧
    interp regW2 1 ⟨[], ["t"]⟩ (HProg.callThen ["x"] 0 HProg.ret)
      = .error ("Procedure not found: " ++ joinDot ["x"]) ∧
    regLookupHandler regW2 ["a", "c"] = some hcW ∧
    interp regW2 1 ⟨[], ["t"]⟩ (HProg.callThen ["a", "c"] 5 HProg.ret) = .ok 6 := by
  refine ⟨rfl, ?_, rfl, ?_⟩
  · exact (c2_nested_call_semantics regW2 0 ⟨[], ["t"]⟩ ["x"] 0 HProg.ret).1 rfl
  · exact ((c2_nested_call_semantics regW2 0 ⟨[], ["t"]⟩ ["a", "c"] 5 HProg.ret).2
      hcW rfl).trans rfl

/-- C3: if execution of the reference throws, `run` does not catch,
translate or modify the condition — the same failure is its result, and
nothing is printed (empty output trace), for any options. -/
theorem c3_run_propagates_failure {V α : Type} (reg : List (Procedure V)) (fuel : Nat)
    (exec : Transport V → ProcedureRefJson α → Except String V)
    (stringify textRepr : V → String) (procedureRef : ProcedureRefJson α)
    (options : RunOptions) (e : String)
    (hfail : exec (syncTransport reg fuel) procedureRef = .error e) :
    run reg fuel exec stringify textRepr procedureRef options = (.error e, []) := by
  simp [run, hfail]

/-- C3 witness: a client that throws `"boom"` makes `run` return
exactly that failure with nothing printed. -/
theorem c3_run_propagates_failure_witness :
    (fun (_ : Transport Nat) (_ : ProcedureRefJson EmptyObj) =>
        (.error "boom" : Except String Nat))
      (syncTransport ([] : List (Procedure Nat)) 0) (refOf (proc ["x"]))
      = .error "boom" ∧
    run ([] : List (Procedure Nat)) 0
        (fun _ _ => .error "boom") (fun _ => "") (fun _ => "")
        (refOf (proc ["x"])) ⟨some true, some Fmt.json⟩
      = (.error "boom", []) :=
  ⟨rfl, c3_run_propagates_failure [] 0 _ _ _ _ ⟨some true, some Fmt.json⟩ "boom" rfl⟩

/-- C7: `print` and `format` are presentation-only — the first
component of `run`'s result (the returned value or propagated failure)
is the same for every combination of options, and with `print: false`
the output trace is empty: nothing is serialized or printed. -/
theorem c7_options_presentation_only {V α : Type} (reg : List (Procedure V)) (fuel : Nat)
    (exec : Transport V → ProcedureRefJson α → Except String V)
    (stringify textRepr : V → String) (procedureRef : ProcedureRefJson α) :
    (∀ o1 o2 : RunOptions,
      (run reg fuel exec stringify textRepr procedureRef o1).1
        = (run reg fuel exec stringify textRepr procedureRef o2).1) ∧
    (∀ o : RunOptions, o.print = some false →
      (run reg fuel exec stringify textRepr procedureRef o).2 = []) := by
  constructor
  · intro o1 o2
    simp only [run]
    cases exec (syncTransport reg fuel) procedureRef <;> rfl
  · intro o hp
    simp only [run]
    cases exec (syncTransport reg fuel) procedureRef <;> simp [hp]

/-- C7 witness: with `print: false` the result is returned and the
output trace is empty. -/
theorem c7_options_presentation_only_witness :
    (⟨some false, none⟩ : RunOptions).print = some false ∧
    (run ([] : List (Procedure Nat)) 0
        (fun _ _ => .ok 7) (fun _ => "7") (fun _ => "7")
        (refOf (proc ["x"])) ⟨some false, none⟩).2 = [] :=
  ⟨rfl,
    (c7_options_presentation_only [] 0 (fun _ _ => .ok 7) (fun _ => "7") (fun _ => "7")
      (refOf (proc ["x"]))).2 ⟨some false, none⟩ rfl⟩

/-- The instrumented interpreter computes the same result as the
plain one. -/
theorem interpT_fst {V : Type} (reg : List (Procedure V)) :
    ∀ (fuel : Nat) (ctx : CallCtxData V) (prog : HProg V),
      (interpT reg fuel ctx prog).1 = interp reg fuel ctx prog := by
  intro fuel
  induction fuel with
  | zero => intro ctx prog; cases prog <;> rfl
  | succ n ih =>
    intro ctx prog
    cases prog with
    | ret v => rfl
    | callThen p i k =>
      simp only [interp, interpT]
      cases hg : regLookupHandler reg p with
      | none => rfl
      | some h =>
        have h1 := ih ctx (h i ctx)
        cases hT : interpT reg n ctx (h i ctx) with
        | mk r1 t1 =>
          rw [hT] at h1
          cases r1 with
          | error e => simp [hT, ← h1]
          | ok v =>
            have h2 := ih ctx (k v)
            cases hT2 : interpT reg n ctx (k v) with
            | mk r2 t2 =>
              rw [hT2] at h2
              simp [hT, hT2, ← h1, ← h2]

/-- Every context recorded in the instrumented interpreter's trace is
the context the interpretation started with: nested handler
invocations never see a different context. -/
theorem interpT_ctx_const {V : Type} (reg : List (Procedure V)) :
    ∀ (fuel : Nat) (ctx : CallCtxData V) (prog : HProg V) (c : CallCtxData V),
      c ∈ (interpT reg fuel ctx prog).2 → c = ctx := by
  intro fuel
  induction fuel with
  | zero => intro ctx prog c hc; cases prog <;> simp [interpT] at hc
  | succ n ih =>
    intro ctx prog c hc
    cases prog with
    | ret v => simp [interpT] at hc
    | callThen p i k =>
      cases hg : regLookupHandler reg p with
      | none => simp [interpT, hg] at hc
      | some h =>
        cases hT : interpT reg n ctx (h i ctx) with
        | mk r1 t1 =>
          cases r1 with
          | error e =>
            simp only [interpT, hg, hT, List.mem_cons] at hc
            rcases hc with hc | hc
            · exact hc
            · exact ih ctx (h i ctx) c (by rw [hT]; exact hc)
          | ok v =>
            cases hT2 : interpT reg n ctx (k v) with
            | mk r2 t2 =>
              simp only [interpT, hg, hT, hT2, List.mem_cons, List.mem_append] at hc
              rcases hc with hc | hc | hc
              · exact hc
              · exact ih ctx (h i ctx) c (by rw [hT]; exact hc)
              · exact ih ctx (k v) c (by rw [hT2]; exact hc)

/-- C9: every handler invocation reached through one installed
transport method — the initial one and every nested one made through
the context's call capability, at any depth — observes the same call
context: `metadata` is the empty object and `path` is the path of the
originally installed procedure (not the path of the procedure whose
handler is currently executing); and the instrumented trace is a
faithful record of the real computation. -/
theorem c9_same_context_everywhere {V : Type} (reg : List (Procedure V)) (fuel : Nat)
    (procd : Procedure V) (h : Handler V) (payload : V) :
    (transportHandlerT reg fuel procd h payload).1
      = transportHandler reg fuel procd h payload ∧
    ∀ c ∈ (transportHandlerT reg fuel procd h payload).2,
      c = { metadata := [], path := procd.path } ∧
      c.metadata = [] ∧ c.path = procd.path := by
  constructor
  · simp only [transportHandlerT, transportHandler]
    cases hT : interpT reg fuel ⟨[], procd.path⟩ (h payload ⟨[], procd.path⟩) with
    | mk r t =>
      have hf := interpT_fst reg fuel ⟨[], procd.path⟩ (h payload ⟨[], procd.path⟩)
      rw [hT] at hf
      simpa using hf
  · intro c hc
    have hmain : c = ({ metadata := [], path := procd.path } : CallCtxData V) := by
      simp only [transportHandlerT] at hc
      cases hT : interpT reg fuel ⟨[], procd.path⟩ (h payload ⟨[], procd.path⟩) with
      | mk r t =>
        rw [hT] at hc
        simp only [List.mem_cons] at hc
        rcases hc with hc | hc
        · exact hc
        · exact interpT_ctx_const reg fuel ⟨[], procd.path⟩
            (h payload ⟨[], procd.path⟩) c (by rw [hT]; exact hc)
    exact ⟨hmain, by rw [hmain], by rw [hmain]⟩

/-- Witness handler at `["a","b"]`: one nested call to `["a","c"]`
through the context capability, then return. -/
def hbW : Handler Nat := fun i _ => HProg.callThen ["a", "c"] i (fun v => HProg.ret (v + 1))

/-- Witness procedure installed on the transport. -/
def procBW : Procedure Nat := ⟨["a", "b"], some hbW⟩

/-- Witness registry for the nested-context claim. -/
def regW : List (Procedure Nat) := [procBW, ⟨["a", "c"], some hcW⟩]

/-- C9 witness: in a concrete two-procedure registry with one nested
call, the context recorded for the nested invocation is the installed
procedure's context. -/
theorem c9_same_context_everywhere_witness :
    (⟨[], ["a", "b"]⟩ : CallCtxData Nat) ∈ (transportHandlerT regW 2 procBW hbW 5).2 ∧
    (⟨[], ["a", "b"]⟩ : CallCtxData Nat)
      = { metadata := [], path := procBW.path } := by
  have htr : (transportHandlerT regW 2 procBW hbW 5).2
      = [⟨[], ["a", "b"]⟩, ⟨[], ["a", "b"]⟩] := rfl
  have hmem : (⟨[], ["a", "b"]⟩ : CallCtxData Nat)
      ∈ (transportHandlerT regW 2 procBW hbW 5).2 := by
    rw [htr]; exact List.mem_cons_self _ _
  exact ⟨hmem, ((c9_same_context_everywhere regW 2 procBW hbW 5).2 _ hmem).1⟩

end ClientPlayground
